import Mathlib

/-!
Shallow embedding of `NAS/retrain.py`: the training pass `train`, the
validation pass `validate`, and the `__main__` driver loop that tracks the
best validation top-1 accuracy and checkpoints the model.  Accuracies,
losses and weights are modelled as rationals; side effects (gradient
operations, checkpoint writes, scheduler steps) are modelled as event
traces.
-/

namespace Retrain

/-- Command-line configuration of `retrain.py` (the `args` namespace):
`--search-for`, `--retrain-epochs`, `--batch-size`, `--aux-weight`,
`--grad-clip`, `--log-frequency`, `--num-layers`. -/
structure Config where
  search_for : String
  retrain_epochs : Nat
  batch_size : Nat
  aux_weight : Rat
  grad_clip : Rat
  log_frequency : Nat
  num_layers : Nat

/-- The `nni.nas.pytorch.utils.AverageMeter`: `update(val, n)` does
`sum += val * n; count += n; avg = sum / count`.  (In Lean, `q / 0 = 0`,
matching the meter's initial `avg = 0` when no update has happened.) -/
structure AverageMeter where
  val : Rat
  sum : Rat
  count : Nat
  avg : Rat

def AverageMeter.new : AverageMeter := ⟨0, 0, 0, 0⟩

def AverageMeter.update (m : AverageMeter) (v : Rat) (n : Nat) : AverageMeter :=
  let sum := m.sum + v * n
  let count := m.count + n
  { val := v, sum := sum, count := count, avg := sum / count }

/-- Fine-grained events emitted by one pass over the data:
framework calls made by the loop bodies of `train` and `validate`. -/
inductive Event where
  | zeroGrad
  | forwardTwo
  | forwardSingle
  | lossPrimary
  | lossAux
  | backward
  | clipGrad (threshold : Rat)
  | optStep
  | meterUpdate
  | logMsg
deriving DecidableEq

/-- One training batch, carrying the batch size `x.size(0)` and the values
the external framework returns for it: `criterion(logits, y)`,
`criterion(aux_logits, y)`, and `accuracy(logits, y)["acc1"|"acc5"]`. -/
structure TrainBatch where
  bs : Nat
  primaryLoss : Rat
  auxLoss : Rat
  acc1 : Rat
  acc5 : Rat

/-- One validation batch, carrying `X.size(0)`, the accuracy values and the
criterion loss for that batch. -/
structure ValBatch where
  bs : Nat
  acc1 : Rat
  acc5 : Rat
  loss : Rat

/-- The loss computed for one training batch (`retrain.py` lines 47-49):
`loss = criterion(logits, y)`, then
`if config.aux_weight > 0. and search_for == 'micro': loss += config.aux_weight * criterion(aux_logits, y)`. -/
def trainStepLoss (config : Config) (search_for : String) (b : TrainBatch) : Rat :=
  let loss := b.primaryLoss
  if 0 < config.aux_weight ∧ search_for = "micro" then
    loss + config.aux_weight * b.auxLoss
  else
    loss

/-- The events of one training batch, in source order (`retrain.py` lines
42-65): `optimizer.zero_grad()`, the forward pass (two outputs for
`micro`, one for `macro`), the primary criterion, the optional auxiliary
criterion, `loss.backward()`, `clip_grad_norm_(…, config.grad_clip)`,
`optimizer.step()`, meter updates, and the periodic log. -/
def trainStepEvents (config : Config) (search_for : String) (n step : Nat) : List Event :=
  [Event.zeroGrad]
  ++ (if search_for = "micro" then [Event.forwardTwo] else [Event.forwardSingle])
  ++ [Event.lossPrimary]
  ++ (if 0 < config.aux_weight ∧ search_for = "micro" then [Event.lossAux] else [])
  ++ [Event.backward, Event.clipGrad config.grad_clip, Event.optStep, Event.meterUpdate]
  ++ (if step % config.log_frequency = 0 ∨ step = n - 1 then [Event.logMsg] else [])

/-- State accumulated by the training pass: the three meters and the event
trace. -/
structure TrainState where
  top1 : AverageMeter
  top5 : AverageMeter
  losses : AverageMeter
  events : List Event

/-- The body of the `for step, (x, y) in enumerate(train_loader)` loop. -/
def trainStep (config : Config) (search_for : String) (n : Nat)
    (s : TrainState) (step : Nat) (b : TrainBatch) : TrainState :=
  { top1 := s.top1.update b.acc1 b.bs
    top5 := s.top5.update b.acc5 b.bs
    losses := s.losses.update (trainStepLoss config search_for b) b.bs
    events := s.events ++ trainStepEvents config search_for n step }

def trainLoop (config : Config) (search_for : String) (n : Nat)
    (s : TrainState) (step : Nat) : List TrainBatch → TrainState
  | [] => s
  | b :: rest => trainLoop config search_for n (trainStep config search_for n s step b) (step + 1) rest

/-- The training pass (`retrain.py` lines 27-69). -/
def train (config : Config) (train_loader : List TrainBatch) (search_for : String) : TrainState :=
  trainLoop config search_for train_loader.length
    { top1 := AverageMeter.new, top5 := AverageMeter.new,
      losses := AverageMeter.new, events := [] } 0 train_loader

/-- State threaded through the validation pass: the model parameters (read
but never written inside `torch.no_grad()`), the meters, and the trace. -/
structure ValState where
  params : List Rat
  top1 : AverageMeter
  top5 : AverageMeter
  losses : AverageMeter
  events : List Event

/-- The events of one validation batch (`retrain.py` lines 84-97): a
single-output forward pass, the criterion, meter updates, the periodic
log — no gradient operation of any kind. -/
def validateStepEvents (config : Config) (n step : Nat) : List Event :=
  [Event.forwardSingle, Event.lossPrimary, Event.meterUpdate]
  ++ (if step % config.log_frequency = 0 ∨ step = n - 1 then [Event.logMsg] else [])

/-- The body of the `for step, (X, y) in enumerate(valid_loader)` loop. -/
def validateStep (config : Config) (n : Nat) (s : ValState) (step : Nat) (b : ValBatch) : ValState :=
  { params := s.params
    top1 := s.top1.update b.acc1 b.bs
    top5 := s.top5.update b.acc5 b.bs
    losses := s.losses.update b.loss b.bs
    events := s.events ++ validateStepEvents config n step }

def validateLoop (config : Config) (n : Nat) (s : ValState) (step : Nat) : List ValBatch → ValState
  | [] => s
  | b :: rest => validateLoop config n (validateStep config n s step b) (step + 1) rest

/-- The validation pass (`retrain.py` lines 72-101): accumulates the meters
over the loader and returns `top1.avg`. -/
def validate (config : Config) (valid_loader : List ValBatch) (params : List Rat) : ValState × Rat :=
  let s := validateLoop config valid_loader.length
    { params := params, top1 := AverageMeter.new, top5 := AverageMeter.new,
      losses := AverageMeter.new, events := [] } 0 valid_loader
  (s, s.top1.avg)

/-- Events of the driver's epoch loop (`retrain.py` lines 137-145): the
call to `train`, the call to `validate`, the `torch.save` checkpoint
write to `result_file`, and `lr_scheduler.step()`. -/
inductive DriverEvent where
  | trainEpoch (epoch : Nat)
  | validEpoch (epoch : Nat)
  | save (epoch : Nat)
  | schedStep (epoch : Nat)
deriving DecidableEq

/-- One iteration's best-accuracy bookkeeping (`retrain.py` lines 141-142):
`best_top1 = max(best_top1, top1)`, then the checkpoint condition
`top1 == best_top1`.  Returns the new best and whether `torch.save` runs. -/
def driverStep (best_top1 top1 : Rat) : Rat × Bool :=
  let best := max best_top1 top1
  (best, decide (top1 = best))

/-- The driver's epoch loop (`retrain.py` lines 136-145), abstracted over
the per-epoch validation results `tops` (epoch `e`'s `top1`): per epoch it
runs `train`, `validate`, updates `best_top1 = max(best_top1, top1)`,
writes the checkpoint when `top1 == best_top1`, then steps the scheduler.
Returns the event trace and the final `best_top1`. -/
def driverLoop (best_top1 : Rat) (epoch : Nat) : List Rat → List DriverEvent × Rat
  | [] => ([], best_top1)
  | top1 :: rest =>
    let best := max best_top1 top1
    let evs := [DriverEvent.trainEpoch epoch, DriverEvent.validEpoch epoch]
      ++ (if top1 = best then [DriverEvent.save epoch] else [])
      ++ [DriverEvent.schedStep epoch]
    let r := driverLoop best (epoch + 1) rest
    (evs ++ r.1, r.2)

/-- The driver run with `best_top1 = 0.` before the first epoch. -/
def driverRun (tops : List Rat) : List DriverEvent × Rat := driverLoop 0 0 tops

/-- The best validation accuracy over the epochs before epoch `e`
(initialized to `0.` before the loop). -/
def bestBefore (tops : List Rat) (e : Nat) : Rat := (tops.take e).foldl max 0

/-- Folding `AverageMeter.update` over a list of (value, weight) pairs from
a fresh meter — the accumulation shape shared by `train` and `validate`. -/
def meterFold (pairs : List (Rat × Nat)) : AverageMeter :=
  pairs.foldl (fun m p => m.update p.1 p.2) AverageMeter.new

/-- Gradient-touching framework calls: `backward`, the optimizer step,
`zero_grad`, gradient clipping. -/
def isGradEvent : Event → Bool
  | Event.backward => true
  | Event.optStep => true
  | Event.zeroGrad => true
  | Event.clipGrad _ => true
  | _ => false

/-- Scanner for the clip-before-step discipline: walking the trace, a
`clipGrad threshold` arms a flag, `zeroGrad` (the start of a new batch)
disarms it, and every `optStep` must find the flag armed. -/
def stepClipOk (threshold : Rat) (armed : Bool) : List Event → Bool
  | [] => true
  | Event.zeroGrad :: rest => stepClipOk threshold false rest
  | Event.clipGrad t :: rest => stepClipOk threshold (armed || decide (t = threshold)) rest
  | Event.optStep :: rest => armed && stepClipOk threshold armed rest
  | _ :: rest => stepClipOk threshold armed rest

/-- Shape of one epoch's events in the driver trace: `trainEpoch e`,
`validEpoch e`, an optional `save e`, then `schedStep e`; returns the
remaining trace when the head matches. -/
def epochShape (e : Nat) : List DriverEvent → Option (List DriverEvent)
  | DriverEvent.trainEpoch e1 :: DriverEvent.validEpoch e2 :: DriverEvent.save e3 ::
      DriverEvent.schedStep e4 :: rest =>
    if e1 = e ∧ e2 = e ∧ e3 = e ∧ e4 = e then some rest else none
  | DriverEvent.trainEpoch e1 :: DriverEvent.validEpoch e2 :: DriverEvent.schedStep e4 :: rest =>
    if e1 = e ∧ e2 = e ∧ e4 = e then some rest else none
  | _ => none

/-- Checks that a driver trace consists, for epochs `e, e+1, …, e+n-1` in
order, of exactly one epoch-shaped block per epoch and nothing else. -/
def driverShapeOk (e n : Nat) (l : List DriverEvent) : Bool :=
  match n with
  | 0 => l.isEmpty
  | n + 1 =>
    match epochShape e l with
    | some rest => driverShapeOk (e + 1) n rest
    | none => false

/-- A Python runtime value, for modelling `argparse` results: either an
`int` or a `str`. -/
inductive PyVal where
  | int (n : Int)
  | str (s : String)
deriving DecidableEq

/-- Argparse semantics of `parser.add_argument("--workers", default=4)`
(`retrain.py` line 108) — no `type` converter: when the flag is omitted
the default, the Python int `4`, is used as-is; when a value is supplied
on the command line it stays the raw string. -/
def parseWorkers : Option String → PyVal
  | none => PyVal.int 4
  | some s => PyVal.str s

/-- Argparse semantics of a numeric argument declared with `type=int`
(e.g. `--batch-size`, `retrain.py` line 107): the supplied token is
converted to an int (`none` on a malformed token, where argparse errors
out). -/
def parseIntArg (dflt : Int) : Option String → Option PyVal
  | none => some (PyVal.int dflt)
  | some s => (s.toInt?).map PyVal.int

/-- Keyword arguments of one `torch.utils.data.DataLoader` call
(`retrain.py` lines 132-133). -/
structure LoaderArgs where
  batch_size : PyVal
  shuffle : Bool
  num_workers : PyVal
  pin_memory : Bool
deriving DecidableEq

/-- Construction of `train_loader` and `valid_loader` (`retrain.py` lines
132-133): both receive `args.workers` as `num_workers`. -/
def makeLoaders (workersArg : Option String) (batch_size : PyVal) : LoaderArgs × LoaderArgs :=
  let w := parseWorkers workersArg
  ({ batch_size := batch_size, shuffle := true, num_workers := w, pin_memory := true },
   { batch_size := batch_size, shuffle := false, num_workers := w, pin_memory := true })

/-! ## Helper lemmas about the driver loop -/

theorem driverLoop_best (l : List Rat) :
    ∀ (b : Rat) (e0 : Nat), (driverLoop b e0 l).2 = l.foldl max b := by
  induction l with
  | nil => intro b e0; rfl
  | cons t rest ih => intro b e0; simp only [driverLoop, List.foldl_cons]; exact ih (max b t) (e0 + 1)

theorem save_mem_cons (t : Rat) (rest : List Rat) (b : Rat) (e0 m : Nat) :
    DriverEvent.save m ∈ (driverLoop b e0 (t :: rest)).1 ↔
      (m = e0 ∧ b ≤ t) ∨ DriverEvent.save m ∈ (driverLoop (max b t) (e0 + 1) rest).1 := by
  by_cases hc : t = max b t
  · have hle : b ≤ t := max_eq_right_iff.mp hc.symm
    simp [driverLoop, if_pos hc, hle]
  · have hnle : ¬b ≤ t := fun hle => hc (max_eq_right hle).symm
    simp [driverLoop, if_neg hc, hnle]

theorem save_not_mem_of_lt (l : List Rat) :
    ∀ (b : Rat) (e0 m : Nat), m < e0 → DriverEvent.save m ∉ (driverLoop b e0 l).1 := by
  induction l with
  | nil => intro b e0 m _; simp [driverLoop]
  | cons t rest ih =>
    intro b e0 m hm hmem
    rcases (save_mem_cons t rest b e0 m).mp hmem with ⟨h, _⟩ | h
    · omega
    · exact ih (max b t) (e0 + 1) m (Nat.lt_succ_of_lt hm) h

theorem save_mem_driverLoop_iff (l : List Rat) :
    ∀ (b : Rat) (e0 k : Nat) (h : k < l.length),
      DriverEvent.save (e0 + k) ∈ (driverLoop b e0 l).1 ↔ (l.take k).foldl max b ≤ l.get ⟨k, h⟩ := by
  induction l with
  | nil => intro b e0 k h; exact absurd h (Nat.not_lt_zero k)
  | cons t rest ih =>
    intro b e0 k h
    match k with
    | 0 =>
      simp only [List.take_zero, List.foldl_nil, List.get]
      rw [Nat.add_zero, save_mem_cons]
      constructor
      · intro hmem
        rcases hmem with ⟨_, hle⟩ | hmem
        · exact hle
        · exact absurd hmem (save_not_mem_of_lt rest (max b t) (e0 + 1) e0 (Nat.lt_succ_self e0))
      · intro hle; exact Or.inl ⟨rfl, hle⟩
    | k + 1 =>
      have hk : k < rest.length := Nat.lt_of_succ_lt_succ h
      have hstep : e0 + (k + 1) = (e0 + 1) + k := by omega
      simp only [List.take_succ_cons, List.foldl_cons, List.get]
      rw [save_mem_cons, hstep]
      constructor
      · intro hmem
        rcases hmem with ⟨heq, _⟩ | hmem
        · omega
        · exact (ih (max b t) (e0 + 1) k hk).mp hmem
      · intro hle; exact Or.inr ((ih (max b t) (e0 + 1) k hk).mpr hle)

/-! ## Helper lemmas about the meters and the two passes -/

theorem foldl_update_sum (pairs : List (Rat × Nat)) :
    ∀ m : AverageMeter, (pairs.foldl (fun m p => m.update p.1 p.2) m).sum
      = m.sum + (pairs.map fun p => p.1 * (p.2 : Rat)).sum := by
  induction pairs with
  | nil => intro m; simp
  | cons p rest ih =>
    intro m
    rw [List.foldl_cons, ih]
    simp only [AverageMeter.update, List.map_cons, List.sum_cons]
    ring

theorem foldl_update_count (pairs : List (Rat × Nat)) :
    ∀ m : AverageMeter, (pairs.foldl (fun m p => m.update p.1 p.2) m).count
      = m.count + (pairs.map Prod.snd).sum := by
  induction pairs with
  | nil => intro m; simp
  | cons p rest ih =>
    intro m
    rw [List.foldl_cons, ih]
    simp only [AverageMeter.update, List.map_cons, List.sum_cons]
    omega

theorem foldl_update_avg (pairs : List (Rat × Nat)) :
    ∀ m : AverageMeter, pairs ≠ [] →
      (pairs.foldl (fun m p => m.update p.1 p.2) m).avg
        = (pairs.foldl (fun m p => m.update p.1 p.2) m).sum
          / ((pairs.foldl (fun m p => m.update p.1 p.2) m).count : Nat) := by
  induction pairs with
  | nil => intro m h; exact absurd rfl h
  | cons p rest ih =>
    intro m _
    match rest with
    | [] => simp [AverageMeter.update]
    | q :: rest2 =>
      simp only [List.foldl_cons]
      exact ih (m.update p.1 p.2) (List.cons_ne_nil q rest2)

theorem meterFold_avg (pairs : List (Rat × Nat)) :
    (meterFold pairs).avg
      = (pairs.map fun p => p.1 * (p.2 : Rat)).sum / (((pairs.map Prod.snd).sum : Nat) : Rat) := by
  match pairs with
  | [] => simp [meterFold, AverageMeter.new]
  | p :: rest =>
    rw [meterFold, foldl_update_avg (p :: rest) AverageMeter.new (List.cons_ne_nil p rest),
      foldl_update_sum, foldl_update_count]
    simp [AverageMeter.new]

theorem validateLoop_params (l : List ValBatch) :
    ∀ (c : Config) (n : Nat) (s : ValState) (step : Nat),
      (validateLoop c n s step l).params = s.params := by
  induction l with
  | nil => intro c n s step; rfl
  | cons b rest ih => intro c n s step; exact ih c n _ (step + 1)

theorem validateLoop_top1 (l : List ValBatch) :
    ∀ (c : Config) (n : Nat) (s : ValState) (step : Nat),
      (validateLoop c n s step l).top1
        = l.foldl (fun m b => m.update b.acc1 b.bs) s.top1 := by
  induction l with
  | nil => intro c n s step; rfl
  | cons b rest ih =>
    intro c n s step
    simp only [List.foldl_cons]
    exact ih c n _ (step + 1)

theorem trainLoop_top1 (l : List TrainBatch) :
    ∀ (c : Config) (sf : String) (n : Nat) (s : TrainState) (step : Nat),
      (trainLoop c sf n s step l).top1
        = l.foldl (fun m b => m.update b.acc1 b.bs) s.top1 := by
  induction l with
  | nil => intro c sf n s step; rfl
  | cons b rest ih =>
    intro c sf n s step
    simp only [List.foldl_cons]
    exact ih c sf n _ (step + 1)

theorem validateStepEvents_no_grad (c : Config) (n step : Nat) :
    ((validateStepEvents c n step).all fun e => !isGradEvent e) = true := by
  unfold validateStepEvents
  split <;> simp [isGradEvent]

theorem validateLoop_no_grad (l : List ValBatch) :
    ∀ (c : Config) (n : Nat) (s : ValState) (step : Nat),
      ((s.events.all fun e => !isGradEvent e) = true) →
      ((validateLoop c n s step l).events.all fun e => !isGradEvent e) = true := by
  induction l with
  | nil => intro c n s step h; exact h
  | cons b rest ih =>
    intro c n s step h
    refine ih c n _ (step + 1) ?_
    simp only [validateStep, List.all_append]
    rw [h, validateStepEvents_no_grad]
    rfl

/-! ## Claim theorems -/

/-- C1: in the driver's epoch loop, the model's parameter state is written
to `result_file` in epoch `e` if and only if that epoch's validation top-1
accuracy is at least the best accuracy over all previous epochs, the best
being initialized to `0.` before the first epoch (the code updates
`best_top1 = max(best_top1, top1)` first, so `top1 == best_top1` holds
exactly when `top1` ties or exceeds the previous best). -/
theorem checkpoint_iff_ge_running_best (tops : List Rat) (e : Nat) (h : e < tops.length) :
    DriverEvent.save e ∈ (driverRun tops).1 ↔ bestBefore tops e ≤ tops.get ⟨e, h⟩ := by
  have h0 := save_mem_driverLoop_iff tops 0 0 e h
  rw [Nat.zero_add] at h0
  exact h0

theorem checkpoint_iff_ge_running_best_witness :
    DriverEvent.save 0 ∈ (driverRun [(1 : Rat)]).1 :=
  (checkpoint_iff_ge_running_best [(1 : Rat)] 0 (by decide)).mpr (by decide)

/-- C2 counterexample: with validation results `[1, 1]`, epoch 1 merely
ties the running best (`bestBefore = 1 = top1`), yet the checkpoint write
does occur in epoch 1 — refuting the claim that no write occurs on a
tying epoch. -/
theorem tie_epoch_still_writes :
    bestBefore [(1 : Rat), 1] 1 = 1 ∧
    DriverEvent.save 1 ∈ (driverRun [(1 : Rat), 1]).1 := by
  constructor
  · decide
  · decide

/-- C2 (amended): one iteration of the best-accuracy bookkeeping sets
`best_top1` to `max(best_top1, top1)`, and the checkpoint write triggers
if and only if the epoch's top-1 accuracy ties or exceeds the previous
best — in particular a write does occur on a tying epoch. -/
theorem driverStep_best_and_write (best top1 : Rat) :
    (driverStep best top1).1 = max best top1 ∧
    ((driverStep best top1).2 = true ↔ best ≤ top1) := by
  refine ⟨rfl, ?_⟩
  simp only [driverStep, decide_eq_true_eq]
  exact ⟨fun h => max_eq_right_iff.mp h.symm, fun h => (max_eq_right h).symm⟩

theorem driverStep_best_and_write_witness :
    (driverStep (1 : Rat) 1).2 = true :=
  (driverStep_best_and_write (1 : Rat) 1).2.mpr (le_refl 1)

/-- C3: the best-accuracy value is monotonically non-decreasing across the
epoch loop: the value of `best_top1` after `k + 1` epochs is at least its
value after `k` epochs. -/
theorem best_top1_monotone (tops : List Rat) (k : Nat) :
    (driverRun (tops.take k)).2 ≤ (driverRun (tops.take (k + 1))).2 := by
  rw [driverRun, driverRun, driverLoop_best, driverLoop_best, List.take_succ]
  cases hx : tops[k]? with
  | none => simp
  | some a =>
    simp only [Option.toList, List.foldl_append, List.foldl_cons, List.foldl_nil]
    exact le_max_left _ a

theorem validate_top1_meter (c : Config) (loader : List ValBatch) (params : List Rat) :
    (validate c loader params).1.top1 = meterFold (loader.map fun b => (b.acc1, b.bs)) := by
  simp only [validate]
  rw [validateLoop_top1, meterFold, List.foldl_map]

theorem train_top1_meter (c : Config) (train_loader : List TrainBatch) (sf : String) :
    (train c train_loader sf).top1 = meterFold (train_loader.map fun b => (b.acc1, b.bs)) := by
  rw [train, trainLoop_top1, meterFold, List.foldl_map]

theorem validate_snd_closed (c : Config) (loader : List ValBatch) (params : List Rat) :
    (validate c loader params).2
      = (loader.map fun b => b.acc1 * (b.bs : Rat)).sum
        / ((((loader.map fun b => b.bs).sum : Nat)) : Rat) := by
  have h2 : (validate c loader params).2 = (validate c loader params).1.top1.avg := rfl
  rw [h2, validate_top1_meter, meterFold_avg, List.map_map, List.map_map]
  rfl

/-- C4: `validate` returns the epoch's average top-1 accuracy: exactly
`top1.avg`, the running average of per-batch `acc1` values weighted by
batch size (equal to `(Σ acc1·bs) / (Σ bs)`), and its `top1` meter is the
same `AverageMeter.update` accumulation over `(acc1, bs)` pairs that
`train` builds — not the top-5 accuracy and not the loss. -/
theorem validate_returns_avg_top1 (c : Config) (loader : List ValBatch) (params : List Rat)
    (train_loader : List TrainBatch) (sf : String) :
    (validate c loader params).2 = (validate c loader params).1.top1.avg ∧
    (validate c loader params).1.top1 = meterFold (loader.map fun b => (b.acc1, b.bs)) ∧
    (train c train_loader sf).top1 = meterFold (train_loader.map fun b => (b.acc1, b.bs)) ∧
    (validate c loader params).2
      = (loader.map fun b => b.acc1 * (b.bs : Rat)).sum
        / ((((loader.map fun b => b.bs).sum : Nat)) : Rat) :=
  ⟨rfl, validate_top1_meter c loader params, train_top1_meter c train_loader sf,
    validate_snd_closed c loader params⟩

/-- C7: the validation pass leaves the model parameters unchanged and its
event trace contains no gradient operation (no `backward`, no optimizer
step, no `zero_grad`, no gradient clipping) — only forward passes, loss
evaluation, meter updates and log output. -/
theorem validate_no_grad_frame (c : Config) (loader : List ValBatch) (params : List Rat) :
    (validate c loader params).1.params = params ∧
    ((validate c loader params).1.events.all fun e => !isGradEvent e) = true := by
  constructor
  · simp only [validate]
    rw [validateLoop_params]
  · simp only [validate]
    exact validateLoop_no_grad loader c loader.length _ 0 rfl

/-- C9: because `best_top1` starts at `0.` and the average top-1 accuracy
is non-negative (whenever every batch accuracy is), the checkpoint
condition holds after the first epoch for every validation outcome: the
parameter file is written at the end of epoch 0, even when the first
epoch's accuracy is exactly 0. -/
theorem first_epoch_always_saves (c : Config) (loader : List ValBatch) (params : List Rat)
    (rest : List Rat) (h : ∀ b ∈ loader, 0 ≤ b.acc1) :
    DriverEvent.save 0 ∈ (driverRun ((validate c loader params).2 :: rest)).1 := by
  have hnn : 0 ≤ (validate c loader params).2 := by
    rw [validate_snd_closed]
    apply div_nonneg
    · apply List.sum_nonneg
      intro x hx
      simp only [List.mem_map] at hx
      obtain ⟨b, hb, rfl⟩ := hx
      exact mul_nonneg (h b hb) (by positivity)
    · positivity
  exact (save_mem_driverLoop_iff ((validate c loader params).2 :: rest) 0 0 0 (by simp)).mpr
    (by simpa using hnn)

/-- A concrete configuration (the script's defaults with `--search-for
micro` and an integral auxiliary weight) used to instantiate general
theorems at concrete inputs. -/
def configW : Config :=
  { search_for := "micro", retrain_epochs := 2, batch_size := 128,
    aux_weight := 1, grad_clip := 5, log_frequency := 10, num_layers := 6 }

theorem first_epoch_always_saves_witness :
    DriverEvent.save 0 ∈
      (driverRun ((validate configW [{ bs := 2, acc1 := 0, acc5 := 0, loss := 1 }]
        ([] : List Rat)).2 :: ([] : List Rat))).1 :=
  first_epoch_always_saves configW [{ bs := 2, acc1 := 0, acc5 := 0, loss := 1 }] [] []
    (by decide)

theorem mem_ite_singleton {P : Prop} [Decidable P] (x y : Event) :
    (x ∈ if P then [y] else ([] : List Event)) ↔ P ∧ x = y := by
  split <;> simp_all

/-- C6: the forward pass has the two-output form exactly for the `micro`
family, the single-output form otherwise (the `macro` family), and the
batch loss carries the `aux_weight`-weighted auxiliary term exactly when
`search_for = "micro"` and `aux_weight > 0`; otherwise the loss is the
primary loss alone. -/
theorem forward_form_and_aux_loss (c : Config) (sf : String) (b : TrainBatch) (n step : Nat) :
    (Event.forwardTwo ∈ trainStepEvents c sf n step ↔ sf = "micro") ∧
    (Event.forwardSingle ∈ trainStepEvents c sf n step ↔ sf ≠ "micro") ∧
    ((sf = "micro" ∧ 0 < c.aux_weight) →
      trainStepLoss c sf b = b.primaryLoss + c.aux_weight * b.auxLoss) ∧
    (¬(sf = "micro" ∧ 0 < c.aux_weight) → trainStepLoss c sf b = b.primaryLoss) := by
  refine ⟨?_, ?_, ?_, ?_⟩
  · by_cases hm : sf = "micro" <;>
      simp [trainStepEvents, hm, mem_ite_singleton]
  · by_cases hm : sf = "micro" <;>
      simp [trainStepEvents, hm, mem_ite_singleton]
  · rintro ⟨hm, hw⟩
    rw [trainStepLoss, if_pos ⟨hw, hm⟩]
  · intro hn
    rw [trainStepLoss, if_neg (fun h => hn ⟨h.2, h.1⟩)]

/-- A concrete training batch used to instantiate general theorems. -/
def batchW : TrainBatch :=
  { bs := 1, primaryLoss := 2, auxLoss := 3, acc1 := 1, acc5 := 1 }

theorem forward_form_and_aux_loss_witness :
    trainStepLoss configW "micro" batchW
      = batchW.primaryLoss + configW.aux_weight * batchW.auxLoss :=
  (forward_form_and_aux_loss configW "micro" batchW 0 0).2.2.1 ⟨rfl, by decide⟩

/-- C10: `--workers` is declared without a type converter (unlike the
`type=int` numeric arguments such as `--batch-size`): when omitted its
value is the Python int `4`, and any value supplied on the command line
stays a string; either way the value is passed as-is to both data loaders
as `num_workers`. -/
theorem workers_arg_untyped (s : String) (bs : PyVal) :
    parseWorkers none = PyVal.int 4 ∧
    parseWorkers (some s) = PyVal.str s ∧
    (makeLoaders none bs).1.num_workers = PyVal.int 4 ∧
    (makeLoaders none bs).2.num_workers = PyVal.int 4 ∧
    (makeLoaders (some s) bs).1.num_workers = PyVal.str s ∧
    (makeLoaders (some s) bs).2.num_workers = PyVal.str s ∧
    (∀ v, parseIntArg 128 (some s) = some v → ∃ n : Int, v = PyVal.int n) := by
  refine ⟨rfl, rfl, rfl, rfl, rfl, rfl, ?_⟩
  intro v hv
  simp only [parseIntArg] at hv
  obtain ⟨n, -, rfl⟩ := Option.map_eq_some'.mp hv
  exact ⟨n, rfl⟩

theorem workers_arg_untyped_witness :
    parseWorkers (some "8") = PyVal.str "8" ∧
    (makeLoaders none (PyVal.int 128)).1.num_workers = PyVal.int 4 :=
  ⟨(workers_arg_untyped "8" (PyVal.int 128)).2.1,
    (workers_arg_untyped "8" (PyVal.int 128)).2.2.1⟩

theorem trainLoop_events (l : List TrainBatch) :
    ∀ (c : Config) (sf : String) (n : Nat) (s : TrainState) (step : Nat),
      (trainLoop c sf n s step l).events
        = s.events ++ ((List.range l.length).map fun i => trainStepEvents c sf n (step + i)).flatten := by
  induction l with
  | nil => intro c sf n s step; simp [trainLoop]
  | cons b rest ih =>
    intro c sf n s step
    simp only [trainLoop]
    rw [ih]
    simp only [trainStep, List.length_cons, List.range_succ_eq_map, List.map_cons,
      List.flatten_cons, Nat.add_zero, List.map_map, List.append_assoc]
    have hf : ((fun i => trainStepEvents c sf n (step + i)) ∘ Nat.succ)
        = fun i => trainStepEvents c sf n (step + 1 + i) := by
      funext i
      simp only [Function.comp_apply]
      congr 1
      omega
    rw [hf]

theorem stepClipOk_batch (c : Config) (sf : String) (n step : Nat) (rest : List Event) (a : Bool) :
    stepClipOk c.grad_clip a (trainStepEvents c sf n step ++ rest)
      = stepClipOk c.grad_clip true rest := by
  unfold trainStepEvents
  by_cases hm : sf = "micro" <;> by_cases hw : 0 < c.aux_weight <;>
    simp only [hm, hw, true_and, and_true, false_and, and_false, if_true, if_false,
      List.cons_append, List.nil_append, List.append_assoc] <;>
    simp [stepClipOk] <;> split <;> simp [stepClipOk]

theorem stepClipOk_flatten (c : Config) (sf : String) (n : Nat) (steps : List Nat) :
    ∀ a : Bool,
      stepClipOk c.grad_clip a ((steps.map fun i => trainStepEvents c sf n i).flatten) = true := by
  induction steps with
  | nil => intro a; rfl
  | cons i rest ih =>
    intro a
    rw [List.map_cons, List.flatten_cons, stepClipOk_batch]
    exact ih true

/-- C5: the training pass's event trace is the concatenation, batch by
batch, of `trainStepEvents` — zero gradients, forward pass, loss
computation (with the optional auxiliary term), backpropagation, gradient
clipping with threshold `config.grad_clip`, optimizer step, meter update,
periodic log, in that order — and scanning the whole trace, every
optimizer step finds gradient clipping with that threshold already
applied since the batch's `zero_grad`: no step happens unclipped. -/
theorem train_clip_before_step (c : Config) (loader : List TrainBatch) (sf : String) :
    (train c loader sf).events
      = ((List.range loader.length).map fun step => trainStepEvents c sf loader.length step).flatten ∧
    stepClipOk c.grad_clip false (train c loader sf).events = true := by
  have h : (train c loader sf).events
      = ((List.range loader.length).map fun step => trainStepEvents c sf loader.length step).flatten := by
    rw [train, trainLoop_events]
    simp
  exact ⟨h, by rw [h]; exact stepClipOk_flatten c sf loader.length (List.range loader.length) false⟩

theorem driverLoop_shape (l : List Rat) :
    ∀ (b : Rat) (e0 : Nat), driverShapeOk e0 l.length (driverLoop b e0 l).1 = true := by
  induction l with
  | nil => intro b e0; rfl
  | cons t rest ih =>
    intro b e0
    by_cases hc : t = max b t
    · simp only [driverLoop, if_pos hc, List.length_cons, List.cons_append,
        List.nil_append, List.append_assoc]
      simp only [driverShapeOk, epochShape, and_self, reduceIte]
      exact ih (max b t) (e0 + 1)
    · simp only [driverLoop, if_neg hc, List.length_cons, List.cons_append,
        List.nil_append, List.append_assoc]
      simp only [driverShapeOk, epochShape, and_self, reduceIte]
      exact ih (max b t) (e0 + 1)

/-- C8: the driver's trace has, for each epoch `0, 1, …, retrain_epochs-1`
in order, exactly one epoch-shaped block: one training pass, then one
validation pass, then the optional checkpoint write, then exactly one
scheduler step — so no scheduler step precedes that epoch's training and
validation, and nothing else appears in the trace. -/
theorem driver_epoch_structure (tops : List Rat) :
    driverShapeOk 0 tops.length (driverRun tops).1 = true :=
  driverLoop_shape tops 0 0

end Retrain
